import Mathlib

/-!
# Verification of `create_proxy.py` (mtg_proxy)

A shallow embedding, in Lean 4, of the deck-proxy pipeline implemented in
`src/create_proxy.py`:

* text is modelled as `List Char` where Python indexes/slices strings, and as
  `String` where only equality matters (card names handed to the lookup client,
  languages, URLs);
* Python exceptions are modelled with `Option`/`Except` (`none` / `.error`
  means the Python code raised);
* the external card service (`mtgsdk`), the network, and the image/PDF
  libraries are abstracted: the service's answer is a `List MtgCard` argument,
  the network fetch is an oracle `String → Except PdfError Img`, and the PDF
  is modelled as the list of draw operations the code issues.

Helper code of this repository that lives in `commons.py` is not part of the
sources (`STOP_WORDS`, `TRANSLATE_CONDITION`, `ENGLISH_CONDITION`); following
the spec those are kept abstract as parameters, see the doc comments of
`readTxt` and `parseEntry`.
-/

namespace MtgProxy

/-- A candidate card record returned by the external card service, exposing the
fields `create_proxy.py` reads: primary `name`, the `foreign_names` list of
`{language, name}` records, and the optional `image_url` (`None` in Python is
`Option.none` here). -/
structure ForeignInfo where
  language : String
  name : String
deriving DecidableEq, Repr

/-- A candidate card record of the external service (see `ForeignInfo`). -/
structure MtgCard where
  name : String
  foreign_names : List ForeignInfo
  image_url : Option String
deriving DecidableEq, Repr

/-- Embeds `_search_card_name_by_language`: Python evaluates
`[info for info in card.foreign_names if info["language"] == language][0]`
and returns its `"name"` field.  Indexing `[0]` raises `IndexError` when the
filtered list is empty; the raise is modelled by `none`. -/
def searchCardNameByLanguage (language : String) (card : MtgCard) : Option String :=
  ((card.foreign_names.filter (fun info => info.language == language)).head?).map
    (fun info => info.name)

/-- Embeds `_is_same_card_name`: for English the registered name is
`card.name`, otherwise `_search_card_name_by_language` (whose `IndexError`
propagates, modelled by `none`); the result is the equality test with the
inputted name. -/
def isSameCardName (name language : String) (card : MtgCard) : Option Bool :=
  if language == "English" then
    some (name == card.name)
  else
    (searchCardNameByLanguage language card).map (fun card_name => name == card_name)

/-- Embeds the list comprehension
`[card for card in cards if _is_same_card_name(name, language, card)]` of
`_find_card_url_by_name`.  Python evaluates the predicate left to right over
`cards`; an exception raised at any element aborts the whole comprehension,
modelled by propagating `none`. -/
def filterChecked (name language : String) : List MtgCard → Option (List MtgCard)
  | [] => some []
  | card :: rest => do
      let b ← isSameCardName name language card
      let tail ← filterChecked name language rest
      pure (if b then card :: tail else tail)

/-- Embeds the tail of `_find_card_url_by_name`, after the service call: the
argument `cards` is the (unfiltered) service result list.  Returns `none` when
the Python code raises, and otherwise `some (url?, logs)` where `url?` is the
returned optional URL and `logs` collects the `tqdm.write` diagnostic.  The
`sleep(1.0)` pacing has no data content and is not modelled. -/
def findCardUrlByName (name language : String) (cards : List MtgCard) :
    Option (Option String × List String) := do
  let checked_cards ← filterChecked name language cards
  if checked_cards.length = 0 then
    pure (none, ["Could not find image for " ++ name ++ "."])
  else
    pure (((cards.find? (fun card => card.image_url.isSome)).bind
      (fun card => card.image_url)), [])

/-- The claim's own description of the returned URL (written from the spec's
words, to be compared with the code): the image URL of the first candidate in
the original result order that has a non-empty image URL, `none` if no such
candidate exists. -/
def firstSome : List (Option String) → Option String
  | [] => none
  | some u :: _ => some u
  | none :: rest => firstSome rest

/-! ## Exact model of the binary64 arithmetic in `_normalize_image`

`_normalize_image` computes `width / image_width` and
`int(image_width * width_reduction_rate)` with Python floats, i.e. IEEE-754
binary64 with round-to-nearest, ties-to-even.  For the operand ranges that
occur here (integer operands below 2^53, quotients far from the subnormal
and overflow ranges) binary64 behaves as "round the exact rational to 53
significant bits with unbounded exponent", which is modelled exactly below
with natural-number arithmetic. -/

/-- Number of binary digits, by structural recursion on a fuel argument so
that the kernel can evaluate it on literals. -/
def bitlenFuel : Nat → Nat → Nat
  | 0, _ => 0
  | fuel + 1, n => if n = 0 then 0 else bitlenFuel fuel (n / 2) + 1

/-- Number of binary digits of `n` (0 for 0); `n` halves to 0 in at most `n`
steps, so `n` itself is enough fuel. -/
def bitlen (n : Nat) : Nat := bitlenFuel n n

/-- Round the rational `a / b` (with `b > 0`) to the nearest integer, ties to
even — the IEEE-754 default rounding. -/
def rndNearestEven (a b : Nat) : Nat :=
  let q := a / b
  let r := a % b
  if 2 * r < b then q
  else if b < 2 * r then q + 1
  else if q % 2 = 0 then q else q + 1

/-- A positive binary64 value, denoting `m * 2 ^ e`.  After rounding, `m` has
53 significant bits (54 in the carry case `m = 2 ^ 53`, which denotes the same
real value). -/
structure Dbl where
  m : Nat
  e : Int
deriving DecidableEq, Repr

/-- The correctly rounded binary64 quotient `num / den`, for `1 ≤ num < 2^53`
and `1 ≤ den < 2^53` (the conversion int → float is exact there, as in the
Python expression `width / image_width`).  The scaled integer quotient
`⌊num·2^s/den⌋` locates the binade; the mantissa is the rounding of the exact
rational `num·2^t/den`. -/
def fdiv (num den : Nat) : Dbl :=
  let s := 64 + bitlen den
  let q0 := (num <<< s) / den
  let drop := bitlen q0 - 53
  let t := s - drop
  ⟨rndNearestEven (num <<< t) den, -(t : Int)⟩

/-- The correctly rounded binary64 product of a positive double `x` with a
natural number `w < 2^53` (in Python, `int * float` converts the int to float
— exact below 2^53 — and multiplies). -/
def fmul (x : Dbl) (w : Nat) : Dbl :=
  let P := x.m * w
  let L := bitlen P
  if L ≤ 53 then ⟨P, x.e⟩
  else ⟨rndNearestEven P (1 <<< (L - 53)), x.e + (L - 53 : Nat)⟩

/-- Python `int(...)` on a positive float: truncation toward zero, i.e. the
floor of `m * 2 ^ e`. -/
def pyInt (x : Dbl) : Nat :=
  if 0 ≤ x.e then x.m <<< x.e.toNat else x.m >>> (-x.e).toNat

/-- The width (resp. height) that `_normalize_image` passes to `resize`:
`int(image_width * (width / image_width))` in binary64, for target edge
`target` and source edge `w`. -/
def resizedEdge (target w : Nat) : Nat := pyInt (fmul (fdiv target w) w)

/-- The pixel dimensions of the image returned by `_normalize_image` for a
source image of size `w × h` (the output of `resize` has exactly the requested
size; `width = 185`, `height = 257` in the source). -/
def normalizeDims (w h : Nat) : Nat × Nat := (resizedEdge 185 w, resizedEdge 257 h)

/-! ## Deck-list parser (`_read_txt`, `_texts_data_to_jsons`) -/

/-- The pipeline's failure modes, modelling the Python exceptions: the
`ValueError` of `_read_txt` (empty input), the `ValueError`/`IndexError`
raised while a line is turned into a card record, and a `urllib`/`PIL`
failure inside `_url_to_jpeg`. -/
inductive PipelineError where
  | emptyInput
  | parseError
  | fetchFailure
deriving DecidableEq, Repr

/-- Python's `str.strip()`: remove leading and trailing whitespace (Python
strips Unicode whitespace; `Char.isWhitespace` is its model here — no claim
depends on the exact whitespace set). -/
def pyStrip (l : List Char) : List Char :=
  ((l.dropWhile Char.isWhitespace).reverse.dropWhile Char.isWhitespace).reverse

/-- The list comprehension of `_read_txt`:
`[s.strip() for s in f.readlines() if len(s.strip()) > 0 and s.strip() not in STOP_WORDS]`
(the retention test is applied to the stripped line, so filtering the stripped
lines is the same comprehension).  Modelled from the spec: `STOP_WORDS` lives
in `commons.py`, which is not among the sources; the spec describes it only as
"a configured stop-word set", so it is an abstract parameter `stop_words`. -/
def retainedLines (stop_words : List (List Char)) (lines : List (List Char)) :
    List (List Char) :=
  (lines.map pyStrip).filter (fun s => 0 < s.length && !(stop_words.contains s))

/-- Embeds `_read_txt`, with the file's lines as the `lines` argument: keeps
the retained stripped lines and raises `ValueError` when none remain. -/
def readTxt (stop_words : List (List Char)) (lines : List (List Char)) :
    Except PipelineError (List (List Char)) :=
  let texts := retainedLines stop_words lines
  if texts.length = 0 then .error .emptyInput else .ok texts

/-- One parsed line: `number`, `name` and `language` of the `card_info` dict
built by `_texts_data_to_jsons`, before the lookup fills `image_url`. -/
structure DeckEntry where
  number : Nat
  name : List Char
  language : String
deriving DecidableEq, Repr

/-- Python `int(text[0])` for a single character: the decimal value of an
ASCII digit, a raised `ValueError` (`none`) otherwise.  (Python `int` also
accepts non-ASCII decimal digits; no input of interest uses them and no claim
depends on that corner.) -/
def digitVal (c : Char) : Option Nat :=
  if c.isDigit then some (c.toNat - '0'.toNat) else none

/-- Embeds the per-line classification of `_texts_data_to_jsons`: quantity
from `int(text[0])`, then the translated-name pattern (language Japanese, name
the matched group), else the ASCII pattern (language English, name `text[2:]`),
else the fallback `text.split(" ")[1]` (language Japanese; `[1]` raises
`IndexError` on a one-token line, modelled by `none`).

Modelled from the spec: `TRANSLATE_CONDITION` and `ENGLISH_CONDITION` live in
`commons.py`, which is not among the sources.  Spec §4.1 describes them as "a
translated name pattern (card name follows a bracket/marker convention)" and
"an ASCII name pattern"; they stay abstract here: `translate_search` models
`re.search(TRANSLATE_CONDITION, text)` with its matched group, and
`english_match` models `re.match(ENGLISH_CONDITION, text) is not None`. -/
def parseEntry (translate_search : List Char → Option (List Char))
    (english_match : List Char → Bool) (text : List Char) : Option DeckEntry := do
  let c ← text.head?
  let number ← digitVal c
  match translate_search text with
  | some nm => some ⟨number, nm, "Japanese"⟩
  | none =>
      if english_match text then
        some ⟨number, text.drop 2, "English"⟩
      else do
        let nm ← (text.splitOn ' ')[1]?
        some ⟨number, nm, "Japanese"⟩

/-- The `card_info` dict of `_texts_data_to_jsons` once `image_url` has been
filled in (`""` when the lookup returned `None`). -/
structure CardBody where
  number : Nat
  name : List Char
  language : String
  image_url : String
deriving DecidableEq, Repr

/-- Embeds the loop of `_texts_data_to_jsons`.  The network is abstracted by
the oracle `lookup` (the value `_find_card_url_by_name` returns for a name and
a language); alongside the `Except` result the function returns the trace of
lookup calls actually issued, so that "no network activity" is a statement
about the trace. -/
def textsDataToJsons (lookup : List Char → String → Option String)
    (translate_search : List Char → Option (List Char))
    (english_match : List Char → Bool) :
    List (List Char) → Except PipelineError (List CardBody) × List (List Char × String)
  | [] => (.ok [], [])
  | text :: rest =>
      match parseEntry translate_search english_match text with
      | none => (.error .parseError, [])
      | some entry =>
          let url? := lookup entry.name entry.language
          let body : CardBody :=
            ⟨entry.number, entry.name, entry.language,
              match url? with | none => "" | some u => u⟩
          match textsDataToJsons lookup translate_search english_match rest with
          | (.ok bodies, calls) => (.ok (body :: bodies), (entry.name, entry.language) :: calls)
          | (.error e, calls) => (.error e, (entry.name, entry.language) :: calls)

/-! ## Page compositor (`_arrange_imgs`, `_create_print_pdf`) -/

/-- The cell indices `(row, collum)` in the order the nested loops of
`_arrange_imgs` visit them: `for collum in range(3): for row in range(3)`,
the inner `row` loop first. -/
def gridCells : List (Nat × Nat) :=
  (List.range 3).flatMap (fun collum => (List.range 3).map (fun row => (row, collum)))

/-- One `drawInlineImage`/`drawString` pair issued by `_arrange_imgs`: the
image, its position, and the position and text of its overlay label. -/
structure Placed (Img : Type) where
  img : Img
  x : Nat
  y : Nat
  labelX : Nat
  labelY : Nat
  label : String
deriving DecidableEq, Repr

/-- Embeds `_arrange_imgs` (margin 5, cell 185×257).  The nested loops place
image `index` at cell `gridCells[index]` and the double `break` stops at
whichever of the batch and the grid runs out first — precisely `zipWith`
against `gridCells`.  `drawInlineImage` receives
`(185*row + 5*(row+1), 257*collum + 5*(collum+1))` and the `"Proxy"` label is
drawn at `(185*row + 30, 257*collum + 150)`. -/
def arrangeImgs {Img : Type} (imgs : List Img) : List (Placed Img) :=
  List.zipWith
    (fun img rc =>
      ⟨img, 185 * rc.1 + 5 * (rc.1 + 1), 257 * rc.2 + 5 * (rc.2 + 1),
        185 * rc.1 + 30, 257 * rc.2 + 150, "Proxy"⟩)
    imgs gridCells

/-- Recursion worker for `chunked9`, structural on a fuel argument (any fuel
at least the list's length yields the chunking; see `chunked9Fuel_irrel`). -/
def chunked9Fuel {α : Type} : Nat → List α → List (List α)
  | _, [] => []
  | 0, _ :: _ => []
  | fuel + 1, x :: xs => (x :: xs.take 8) :: chunked9Fuel fuel (xs.drop 8)

/-- Embeds `more_itertools.chunked(imgs, 9)`: consecutive chunks of nine, the
last possibly shorter. -/
def chunked9 {α : Type} (l : List α) : List (List α) := chunked9Fuel l.length l

theorem chunked9Fuel_nil {α : Type} (fuel : Nat) :
    chunked9Fuel (α := α) fuel [] = [] := by
  cases fuel <;> rfl

theorem chunked9Fuel_irrel {α : Type} :
    ∀ (fuel₁ fuel₂ : Nat) (l : List α), l.length ≤ fuel₁ → l.length ≤ fuel₂ →
      chunked9Fuel fuel₁ l = chunked9Fuel fuel₂ l := by
  intro fuel₁
  induction fuel₁ with
  | zero =>
      intro fuel₂ l h₁ _
      have : l = [] := List.eq_nil_of_length_eq_zero (Nat.le_zero.mp h₁)
      subst this
      rw [chunked9Fuel_nil, chunked9Fuel_nil]
  | succ n ih =>
      intro fuel₂ l h₁ h₂
      cases l with
      | nil => rw [chunked9Fuel_nil, chunked9Fuel_nil]
      | cons x xs =>
          cases fuel₂ with
          | zero => simp at h₂
          | succ m =>
              simp only [chunked9Fuel]
              have hlen : (xs.drop 8).length = xs.length - 8 := List.length_drop ..
              have := ih m (xs.drop 8) (by simp at h₁ ⊢; omega) (by simp at h₂ ⊢; omega)
              rw [this]

@[simp] theorem chunked9_nil {α : Type} : chunked9 (α := α) [] = [] := rfl

@[simp] theorem chunked9_cons {α : Type} (x : α) (xs : List α) :
    chunked9 (x :: xs) = (x :: xs.take 8) :: chunked9 (xs.drop 8) := by
  show chunked9Fuel (xs.length + 1) (x :: xs) = _
  simp only [chunked9Fuel]
  rw [chunked9, chunked9Fuel_irrel xs.length (xs.drop 8).length (xs.drop 8) (by simp) (by simp)]

/-- The pages `_create_print_pdf` renders: one `_arrange_imgs` call per chunk
of nine (`pdf.showPage()` separates consecutive chunks, so the document holds
one page per chunk). -/
def pagesOf {Img : Type} (imgs : List Img) : List (List (Placed Img)) :=
  (chunked9 imgs).map arrangeImgs

/-- Embeds the save-name normalization of `_create_print_pdf`:
`if save_name[-3:] != "pdf": save_name = save_name + ".pdf"`.  Python
`s[-3:]` is the last `min 3 (length s)` characters, i.e.
`drop (length s - 3)`. -/
def normalizeSaveName (save_name : List Char) : List Char :=
  if save_name.drop (save_name.length - 3) ≠ ['p', 'd', 'f'] then
    save_name ++ ['.', 'p', 'd', 'f']
  else save_name

/-- The spec's wording of "has the `.pdf` extension" (written from the spec,
to be compared with the code's last-three-characters test). -/
def hasPdfExt (s : List Char) : Bool := List.isSuffixOf ['.', 'p', 'd', 'f'] s

/-- The comprehension `[_url_to_jpeg(image_url) for _ in range(n)]` of
`_create_print_pdf`: `n` sequential fetches of the same URL; the first raise
aborts the comprehension (and the whole run). -/
def fetchN {Img : Type} (fetch : String → Except PipelineError Img) (url : String) :
    Nat → Except PipelineError (List Img)
  | 0 => .ok []
  | n + 1 => do
      let img ← fetch url
      let rest ← fetchN fetch url n
      pure (img :: rest)

/-- Embeds the image-collection loop of `_create_print_pdf`: entries with
`image_url == ""` are reported (`tqdm.write(f"{json['name']}は…")`, modelled by
recording the entry's name in the log list) and contribute nothing; the others
contribute `number` fetches of their URL. -/
def buildImgs {Img : Type} (fetch : String → Except PipelineError Img) :
    List CardBody → Except PipelineError (List Img × List (List Char))
  | [] => .ok ([], [])
  | j :: rest =>
      if j.image_url = "" then do
        let (imgs, logs) ← buildImgs fetch rest
        pure (imgs, j.name :: logs)
      else do
        let these ← fetchN fetch j.image_url j.number
        let (imgs, logs) ← buildImgs fetch rest
        pure (these ++ imgs, logs)

/-- The persisted document: its file name, its pages (each a list of draw
operations), and the console diagnostics written along the way.  A `SavedPdf`
exists only in the `.ok` branch: a run that raises never persists one
(`canvas.Canvas(save_name)` and `pdf.save()` both come after every fetch). -/
structure SavedPdf (Img : Type) where
  file_name : List Char
  pages : List (List (Placed Img))
  logs : List (List Char)
deriving DecidableEq, Repr

/-- Embeds `_create_print_pdf`: collect the images (any fetch failure aborts
with nothing persisted), normalize the save name, chunk into nines and render
one page per chunk. -/
def createPrintPdf {Img : Type} (fetch : String → Except PipelineError Img)
    (jsons : List CardBody) (save_name : List Char) :
    Except PipelineError (SavedPdf Img) := do
  let (imgs, logs) ← buildImgs fetch jsons
  pure ⟨normalizeSaveName save_name, pagesOf imgs, logs⟩

/-- Embeds `create_proxy`: read the deck list, resolve every line, render and
persist.  Returns the run's outcome together with the trace of lookup calls
issued (network activity). -/
def createProxy {Img : Type} (lookup : List Char → String → Option String)
    (fetch : String → Except PipelineError Img)
    (translate_search : List Char → Option (List Char))
    (english_match : List Char → Bool)
    (stop_words : List (List Char)) (lines : List (List Char))
    (save_name : List Char) :
    Except PipelineError (SavedPdf Img) × List (List Char × String) :=
  match readTxt stop_words lines with
  | .error e => (.error e, [])
  | .ok texts =>
      match textsDataToJsons lookup translate_search english_match texts with
      | (.error e, calls) => (.error e, calls)
      | (.ok jsons, calls) => (createPrintPdf fetch jsons save_name, calls)

/-! ## Theorems -/

@[simp] theorem except_ok_bind {ε α β : Type} (a : α) (f : α → Except ε β) :
    (Except.ok a >>= f : Except ε β) = f a := rfl

@[simp] theorem except_error_bind {ε α β : Type} (e : ε) (f : α → Except ε β) :
    (Except.error e >>= f : Except ε β) = Except.error e := rfl

theorem find?_isSome_eq_firstSome (cards : List MtgCard) :
    ((cards.find? (fun card => card.image_url.isSome)).bind (fun card => card.image_url))
      = firstSome (cards.map (fun card => card.image_url)) := by
  induction cards with
  | nil => rfl
  | cons card rest ih =>
      cases h : card.image_url with
      | none => simpa [List.find?, firstSome, h] using ih
      | some u => simp [List.find?, firstSome, h]

/-- **C1.** For every lookup `resolve(name, language)` (given the service's
candidate list and assuming the exact-match filtering itself completes, i.e.
raises no exception): if at least one exact match exists, the operation
returns the image URL of the first candidate in the original (unfiltered)
result order that has a non-empty image URL (`none` if no such candidate),
with no diagnostic; if no exact match exists, it logs a diagnostic and
returns no image. -/
theorem resolve_exact_match_behaviour (name language : String)
    (cards checked : List MtgCard)
    (h : filterChecked name language cards = some checked) :
    (checked ≠ [] →
      findCardUrlByName name language cards
        = some (firstSome (cards.map (fun card => card.image_url)), [])) ∧
    (checked = [] →
      findCardUrlByName name language cards
        = some (none, ["Could not find image for " ++ name ++ "."])) := by
  constructor
  · intro hne
    simp [findCardUrlByName, h, hne, find?_isSome_eq_firstSome]
  · intro he
    subst he
    simp [findCardUrlByName, h]

/-- Witness for C1 at a concrete candidate list. -/
theorem resolve_exact_match_behaviour_witness :
    findCardUrlByName "Bolt" "English"
        [⟨"Bolt", [], some "u1"⟩, ⟨"Other", [], none⟩]
      = some (firstSome ([⟨"Bolt", [], some "u1"⟩,
          ⟨"Other", [], none⟩].map (fun card => MtgCard.image_url card)), []) :=
  (resolve_exact_match_behaviour "Bolt" "English"
    [⟨"Bolt", [], some "u1"⟩, ⟨"Other", [], none⟩]
    [⟨"Bolt", [], some "u1"⟩] (by decide)).1 (by decide)

theorem filterChecked_none_of_missing (name language : String)
    (hlang : language ≠ "English") :
    ∀ cards : List MtgCard,
      (∃ card ∈ cards,
        card.foreign_names.filter (fun info => info.language == language) = []) →
      filterChecked name language cards = none := by
  have hbeq : (language == "English") = false := by simpa using hlang
  intro cards hex
  induction cards with
  | nil => simp at hex
  | cons c rest ih =>
      obtain ⟨card, hc, hfil⟩ := hex
      rcases List.mem_cons.mp hc with rfl | hmem
      · simp [filterChecked, isSameCardName, hbeq, searchCardNameByLanguage, hfil]
      · cases hb : isSameCardName name language c with
        | none => simp [filterChecked, hb]
        | some b => simp [filterChecked, hb, ih ⟨card, hmem, hfil⟩]

/-- **C10.** For a non-English lookup, when some candidate has no
foreign-name record in the requested language, the indexing `[0]` in
`_search_card_name_by_language` raises (modelled by the overall result
`none`): the candidate is neither discarded nor does the lookup return the
no-image marker `some (none, _)`. -/
theorem resolve_foreign_missing_raises (name language : String)
    (cards : List MtgCard) (hlang : language ≠ "English")
    (hmiss : ∃ card ∈ cards,
      card.foreign_names.filter (fun info => info.language == language) = []) :
    findCardUrlByName name language cards = none := by
  have hfc := filterChecked_none_of_missing name language hlang cards hmiss
  simp [findCardUrlByName, hfc]

/-- Witness for C10 at a concrete candidate list. -/
theorem resolve_foreign_missing_raises_witness :
    findCardUrlByName "稲妻" "Japanese"
        [⟨"Bolt", [⟨"German", "Blitz"⟩], some "u1"⟩] = none :=
  resolve_foreign_missing_raises "稲妻" "Japanese"
    [⟨"Bolt", [⟨"German", "Blitz"⟩], some "u1"⟩]
    (by decide) ⟨⟨"Bolt", [⟨"German", "Blitz"⟩], some "u1"⟩, by simp, by decide⟩

theorem chunked9Fuel_length {α : Type} :
    ∀ (fuel : Nat) (l : List α), l.length ≤ fuel →
      (chunked9Fuel fuel l).length = (l.length + 8) / 9 := by
  intro fuel
  induction fuel with
  | zero =>
      intro l h
      have : l = [] := List.eq_nil_of_length_eq_zero (Nat.le_zero.mp h)
      subst this
      simp [chunked9Fuel_nil]
  | succ n ih =>
      intro l h
      cases l with
      | nil => simp [chunked9Fuel_nil]
      | cons x xs =>
          simp only [chunked9Fuel, List.length_cons]
          rw [ih (xs.drop 8) (by simp at h ⊢; omega)]
          simp only [List.length_drop]
          simp at h
          omega

theorem chunked9_length {α : Type} (l : List α) :
    (chunked9 l).length = (l.length + 8) / 9 :=
  chunked9Fuel_length l.length l le_rfl

/-- **C2.** For every flat image sequence of length `T`, the compositor
places at most 9 images on any single page and emits exactly
`⌈T / 9⌉ = (T + 8) / 9` pages. -/
theorem compose_page_count {Img : Type} (imgs : List Img) :
    (∀ page ∈ pagesOf imgs, page.length ≤ 9) ∧
    (pagesOf imgs).length = (imgs.length + 8) / 9 := by
  constructor
  · intro page hp
    obtain ⟨c, _, rfl⟩ := List.mem_map.mp hp
    have : (arrangeImgs c).length = min c.length 9 :=
      List.length_zipWith ..
    omega
  · simp [pagesOf, chunked9_length]

/-- Witness for C2 at a concrete image sequence (10 images: two pages, the
first full with 9 placements). -/
theorem compose_page_count_witness :
    (arrangeImgs [(0 : Nat), 1, 2, 3, 4, 5, 6, 7, 8]).length ≤ 9 ∧
    (pagesOf [(0 : Nat), 1, 2, 3, 4, 5, 6, 7, 8, 9]).length = 2 := by
  constructor
  · exact (compose_page_count [(0 : Nat), 1, 2, 3, 4, 5, 6, 7, 8, 9]).1
      (arrangeImgs [(0 : Nat), 1, 2, 3, 4, 5, 6, 7, 8]) (by decide)
  · exact ((compose_page_count [(0 : Nat), 1, 2, 3, 4, 5, 6, 7, 8, 9]).2).trans (by decide)

/-- **C5 counterexample.** With a batch of two images, the second image is
drawn at `(195, 5)` — same `y`, next cell to the *right* — whereas
column-major placement (one vertical column bottom-to-top before advancing)
would put it in the cell above the first, at `(5, 267)`.  So placement is not
column-major. -/
theorem arrange_not_column_major :
    ((arrangeImgs [(0 : Nat), 1]).map (fun p => (p.x, p.y)) = [(5, 5), (195, 5)]) ∧
    ((arrangeImgs [(0 : Nat), 1]).map (fun p => (p.x, p.y)) ≠ [(5, 5), (5, 267)]) := by
  decide

theorem gridCells_getElem? (i : Nat) (hi : i < 9) :
    gridCells[i]? = some (i % 3, i / 3) := by
  interval_cases i <;> rfl

/-- **C5 (amended).** For every batch of up to 9 images the compositor places
them all, in row-major order by coordinate: image `i` goes to the cell in
horizontal position `i % 3` (left to right) and vertical position `i / 3`
(bottom to top), i.e. it fills one horizontal row of 3 cells at the bottom
before advancing to the row above, stops when the batch is exhausted, and
draws each placed image with the fixed `"Proxy"` text overlay. -/
theorem arrange_row_major {Img : Type} (imgs : List Img) (h : imgs.length ≤ 9)
    (i : Nat) (hi : i < imgs.length) :
    (arrangeImgs imgs).length = imgs.length ∧
    (arrangeImgs imgs)[i]? =
      some ⟨imgs[i], 185 * (i % 3) + 5 * (i % 3 + 1), 257 * (i / 3) + 5 * (i / 3 + 1),
        185 * (i % 3) + 30, 257 * (i / 3) + 150, "Proxy"⟩ := by
  constructor
  · have : (arrangeImgs imgs).length = min imgs.length 9 :=
      List.length_zipWith ..
    omega
  · rw [arrangeImgs, List.getElem?_zipWith']
    rw [List.getElem?_eq_getElem hi, gridCells_getElem? i (lt_of_lt_of_le hi h)]
    rfl

/-- Witness for C5 (amended): in a batch of four, image 3 starts the second
row from the bottom, at the left. -/
theorem arrange_row_major_witness :
    (arrangeImgs [(10 : Nat), 20, 30, 40]).length = 4 ∧
    (arrangeImgs [(10 : Nat), 20, 30, 40])[3]? = some ⟨40, 5, 267, 30, 407, "Proxy"⟩ := by
  have h := arrange_row_major [(10 : Nat), 20, 30, 40] (by decide) 3 (by decide)
  exact ⟨h.1, h.2.trans (by decide)⟩

/-- **C4** fails on the code: `_normalize_image` computes the resize width as
`int(image_width * (185 / image_width))` in binary64 floating point, and for a
source image of width 11 the quotient `185/11` rounds down just enough that
`11 * (185/11) = 184.99999999999997 < 185`, so `int` truncates to 184.  The
output is 184×257, not the fixed 185×257 footprint the code's own
`width = 185` targets (widths 11, 22, 23, 41, 43, 44, … all fail; powers of
two scale the failure since scaling by 2 is exact in binary64). -/
theorem normalize_width_11_not_185 :
    normalizeDims 11 100 = (184, 257) ∧ (normalizeDims 11 100).1 ≠ 185 := by
  decide

/-- **C6 counterexample.** The code tests `save_name[-3:] != "pdf"`, not the
`.pdf` extension: the requested name `"mypdf"` lacks the `.pdf` extension, yet
the persisted name is `"mypdf"` unchanged, not `"mypdf.pdf"` as the claim
states. -/
theorem save_name_mypdf_unchanged :
    hasPdfExt ['m', 'y', 'p', 'd', 'f'] = false ∧
    normalizeSaveName ['m', 'y', 'p', 'd', 'f'] = ['m', 'y', 'p', 'd', 'f'] ∧
    normalizeSaveName ['m', 'y', 'p', 'd', 'f']
      ≠ ['m', 'y', 'p', 'd', 'f'] ++ ['.', 'p', 'd', 'f'] := by
  decide

/-- **C6 (amended).** The persisted file name equals the requested name
exactly when the requested name's last three characters are `"pdf"`, and
otherwise is the requested name with `".pdf"` appended; in particular every
name that already ends in `".pdf"` is kept unchanged (so `"deck"` becomes
`"deck.pdf"` and `"deck.pdf"` stays `"deck.pdf"`). -/
theorem save_name_normalization (s : List Char) :
    (normalizeSaveName s = s ↔ s.drop (s.length - 3) = ['p', 'd', 'f']) ∧
    (s.drop (s.length - 3) ≠ ['p', 'd', 'f'] →
      normalizeSaveName s = s ++ ['.', 'p', 'd', 'f']) ∧
    (hasPdfExt s = true → normalizeSaveName s = s) := by
  have hmain : ∀ t : List Char,
      normalizeSaveName t = t ↔ t.drop (t.length - 3) = ['p', 'd', 'f'] := by
    intro t
    by_cases h : t.drop (t.length - 3) = ['p', 'd', 'f']
    · simp [normalizeSaveName, h]
    · simp only [normalizeSaveName, if_pos (by simpa using h)]
      constructor
      · intro he
        have := congrArg List.length he
        simp at this
      · intro hc
        exact absurd hc h
  refine ⟨hmain s, fun hne => ?_, fun hext => ?_⟩
  · simp [normalizeSaveName, hne]
  · rw [hmain s]
    rw [hasPdfExt, List.isSuffixOf_iff_suffix] at hext
    obtain ⟨t, rfl⟩ := hext
    have h4 : (t ++ ['.', 'p', 'd', 'f']).length - 3 = t.length + 1 := by simp
    rw [h4, ← List.drop_drop, List.drop_left]
    rfl

/-- Witness for C6 (amended): `"deck"` gets `".pdf"` appended, becoming
`"deck.pdf"`, and `"deck.pdf"` stays unchanged. -/
theorem save_name_normalization_witness :
    normalizeSaveName ['d', 'e', 'c', 'k']
      = ['d', 'e', 'c', 'k', '.', 'p', 'd', 'f'] ∧
    normalizeSaveName ['d', 'e', 'c', 'k', '.', 'p', 'd', 'f']
      = ['d', 'e', 'c', 'k', '.', 'p', 'd', 'f'] :=
  ⟨((save_name_normalization ['d', 'e', 'c', 'k']).2.1 (by decide)).trans (by decide),
    (save_name_normalization ['d', 'e', 'c', 'k', '.', 'p', 'd', 'f']).2.2 (by decide)⟩

/-- **C7 counterexample.** A retained line may start with the digit `0`:
`int(text[0])` is then 0 and the parser outputs an entry with quantity 0, so
"quantity ≥ 1 for every entry the parser outputs" fails.  (The pattern
parameters are instantiated arbitrarily — here the line `"0 Island"` parses
through the ASCII branch.) -/
theorem parse_quantity_zero :
    parseEntry (fun _ => none) (fun _ => true)
        ['0', ' ', 'I', 's', 'l', 'a', 'n', 'd']
      = some ⟨0, ['I', 's', 'l', 'a', 'n', 'd'], "English"⟩ ∧
    ¬ (1 ≤ (0 : Nat)) := by
  decide

/-- **C7 (amended).** Every entry the parser outputs has quantity equal to
the decimal value of its line's first character (which must be a digit for an
entry to be produced at all); the quantity is ≥ 1 exactly when that first
character is not `'0'`, so quantity 0 is possible and the claimed invariant
holds only for lines whose leading digit is nonzero. -/
theorem parse_quantity_eq_leading_digit
    (translate_search : List Char → Option (List Char))
    (english_match : List Char → Bool) (text : List Char) (e : DeckEntry)
    (h : parseEntry translate_search english_match text = some e) :
    ∃ c, text.head? = some c ∧ c.isDigit = true ∧
      e.number = c.toNat - '0'.toNat ∧ (1 ≤ e.number ↔ c ≠ '0') := by
  cases hc : text.head? with
  | none => simp [parseEntry, hc] at h
  | some c =>
      refine ⟨c, rfl, ?_⟩
      cases hd : c.isDigit with
      | false => simp [parseEntry, hc, digitVal, hd] at h
      | true =>
          refine ⟨rfl, ?_⟩
          have hdv : digitVal c = some (c.toNat - '0'.toNat) := by
            simp [digitVal, hd]
          have hnum : e.number = c.toNat - '0'.toNat := by
            simp only [parseEntry, Option.bind_eq_bind, hc, hdv, Option.some_bind] at h
            split at h
            · obtain rfl := Option.some.inj h
              rfl
            · split at h
              · obtain rfl := Option.some.inj h
                rfl
              · cases hidx : (text.splitOn ' ')[1]? with
                | none => rw [hidx] at h; simp at h
                | some nm =>
                    rw [hidx] at h
                    simp only [Option.some_bind] at h
                    obtain rfl := Option.some.inj h
                    rfl
          refine ⟨hnum, ?_⟩
          have hge : 48 ≤ c.toNat := by
            simp [Char.isDigit] at hd
            exact hd.1
          constructor
          · intro h1 hc0
            subst hc0
            simp [Char.toNat] at hnum
            omega
          · intro hne
            have : c.toNat ≠ 48 := fun h48 => hne (by
              refine Char.ext (UInt32.ext ?_)
              simpa [Char.toNat] using h48)
            show 1 ≤ e.number
            rw [hnum]
            have : ('0' : Char).toNat = 48 := rfl
            omega

/-- Witness for C7 (amended) at the line `"3 Bolt"`. -/
theorem parse_quantity_eq_leading_digit_witness :
    ∃ c, (['3', ' ', 'B', 'o', 'l', 't'] : List Char).head? = some c ∧
      c.isDigit = true ∧
      (3 : Nat) = c.toNat - '0'.toNat ∧ (1 ≤ (3 : Nat) ↔ c ≠ '0') := by
  have h := parse_quantity_eq_leading_digit (fun _ => none) (fun _ => true)
    ['3', ' ', 'B', 'o', 'l', 't'] ⟨3, ['B', 'o', 'l', 't'], "English"⟩ (by decide)
  exact h

/-- **C8.** When, after stripping and discarding empty and stop-word lines,
zero lines remain, the run fails with the empty-input error and performs no
network activity: the lookup-call trace is empty (and the outcome does not
depend on the lookup or fetch oracles at all). -/
theorem empty_input_aborts_before_network {Img : Type}
    (lookup : List Char → String → Option String)
    (fetch : String → Except PipelineError Img)
    (translate_search : List Char → Option (List Char))
    (english_match : List Char → Bool)
    (stop_words : List (List Char)) (lines : List (List Char))
    (save_name : List Char)
    (h : retainedLines stop_words lines = []) :
    createProxy lookup fetch translate_search english_match stop_words lines save_name
      = (.error .emptyInput, []) := by
  simp [createProxy, readTxt, h]

/-- Witness for C8: a whitespace line and a stop-word line leave nothing. -/
theorem empty_input_aborts_before_network_witness :
    createProxy (fun _ _ => none) (fun _ => (.ok () : Except PipelineError Unit))
        (fun _ => none) (fun _ => false)
        [['D', 'e', 'c', 'k']] [[' '], ['D', 'e', 'c', 'k']] ['o', 'u', 't']
      = (.error .emptyInput, []) :=
  empty_input_aborts_before_network (fun _ _ => none) (fun _ => (.ok () : Except PipelineError Unit))
    (fun _ => none) (fun _ => false)
    [['D', 'e', 'c', 'k']] [[' '], ['D', 'e', 'c', 'k']] ['o', 'u', 't'] (by decide)

theorem fetchN_pure {Img : Type} (f : String → Img) (url : String) (n : Nat) :
    fetchN (fun u => .ok (f u)) url n = .ok (List.replicate n (f url)) := by
  induction n with
  | zero => rfl
  | succ n ih => simp [fetchN, ih, List.replicate_succ]

/-- **C3.** With a fetch that always succeeds, the image-collection loop
produces exactly the flattened sequence in which an entry with a resolved
(non-empty) image reference contributes `number` copies of its fetched image
and an unresolved entry contributes nothing; each unresolved entry (and no
other) is reported in the diagnostic log; and the per-entry contribution
length is `number` for resolved entries and 0 for unresolved ones. -/
theorem orchestrator_contribution {Img : Type} (f : String → Img)
    (jsons : List CardBody) :
    buildImgs (fun url => .ok (f url)) jsons
      = .ok (jsons.flatMap (fun j =>
            if j.image_url = "" then [] else List.replicate j.number (f j.image_url)),
          (jsons.filter (fun j => j.image_url == "")).map (fun j => j.name)) ∧
    ∀ j : CardBody,
      (if j.image_url = "" then ([] : List Img)
        else List.replicate j.number (f j.image_url)).length
        = if j.image_url = "" then 0 else j.number := by
  constructor
  · induction jsons with
    | nil => rfl
    | cons j rest ih =>
        by_cases hurl : j.image_url = ""
        · simp [buildImgs, hurl, ih]
        · simp [buildImgs, hurl, fetchN_pure, ih]
  · intro j
    by_cases hurl : j.image_url = "" <;> simp [hurl]

theorem buildImgs_error_of_failing_fetch {Img : Type}
    (fetch : String → Except PipelineError Img) :
    ∀ (jsons : List CardBody) (j : CardBody), j ∈ jsons → j.image_url ≠ "" →
      1 ≤ j.number → (∃ e, fetch j.image_url = .error e) →
      ∃ e₂, buildImgs fetch jsons = .error e₂ := by
  intro jsons
  induction jsons with
  | nil => intro j hj; simp at hj
  | cons a rest ih =>
      intro j hj hurl hn hfail
      rcases List.mem_cons.mp hj with rfl | hmem
      · obtain ⟨e, he⟩ := hfail
        obtain ⟨m, hm⟩ : ∃ m, j.number = m + 1 := ⟨j.number - 1, by omega⟩
        refine ⟨e, ?_⟩
        simp [buildImgs, hurl, hm, fetchN, he]
      · by_cases hurl' : a.image_url = ""
        · obtain ⟨e₂, he₂⟩ := ih j hmem hurl hn hfail
          exact ⟨e₂, by simp [buildImgs, hurl', he₂]⟩
        · cases hf : fetchN fetch a.image_url a.number with
          | error e => exact ⟨e, by simp [buildImgs, hurl', hf]⟩
          | ok l =>
              obtain ⟨e₂, he₂⟩ := ih j hmem hurl hn hfail
              exact ⟨e₂, by simp [buildImgs, hurl', hf, he₂]⟩

/-- **C9.** If the fetch of some resolved image actually performed by the run
fails (an entry with a non-empty reference and quantity at least one whose
URL the fetch oracle rejects), the whole `_create_print_pdf` call aborts with
an error: no `SavedPdf` — no output file — is produced at all. -/
theorem fetch_failure_aborts {Img : Type}
    (fetch : String → Except PipelineError Img) (jsons : List CardBody)
    (j : CardBody) (hj : j ∈ jsons) (hurl : j.image_url ≠ "")
    (hn : 1 ≤ j.number) (e : PipelineError)
    (hfail : fetch j.image_url = .error e) (save_name : List Char) :
    ∃ e₂, createPrintPdf fetch jsons save_name = .error e₂ := by
  obtain ⟨e₂, he₂⟩ :=
    buildImgs_error_of_failing_fetch fetch jsons j hj hurl hn ⟨e, hfail⟩
  exact ⟨e₂, by simp [createPrintPdf, he₂]⟩

/-- Witness for C9 at a concrete run: one entry with a resolved reference and
an always-failing fetch. -/
theorem fetch_failure_aborts_witness :
    ∃ e₂, createPrintPdf (fun _ => (.error .fetchFailure : Except PipelineError Unit))
        [⟨1, ['a'], "English", "u"⟩] ['o', 'u', 't'] = .error e₂ :=
  fetch_failure_aborts (fun _ => (.error .fetchFailure : Except PipelineError Unit))
    [⟨1, ['a'], "English", "u"⟩] ⟨1, ['a'], "English", "u"⟩ (by decide)
    (by decide) (by decide) .fetchFailure rfl ['o', 'u', 't']

end MtgProxy
